import Mathlib

/-!
Verification development for the feldspar chess engine core
(`src/game.rs`, `src/feldspar.rs`, `src/perft.rs`).

The repository's `board.rs`, `moves.rs`, `core.rs`, `eval.rs` and
`tree.rs` are not part of the provided sources; the definitions below
that stand in for them carry a doc comment starting with
`Modelled from the spec:` and follow the natural-language
specification (spec.md sections 2, 3, 4.1, 4.2, 4.5) together with the
way `game.rs` uses them.  Everything else is translated directly from
the Rust sources.

Square numbering (fixed by `Game::from_fen` in `game.rs`, which starts
at square 63 for the first placement character, i.e. a8): square 0 is
h1, square 7 is a1, square 56 is h8, square 63 is a8; a square's rank
index is `sq / 8` and adjacent squares of one rank differ by 1.
-/

namespace Feldspar

/-- Piece colors, from the spec data model (`core.rs` is absent). -/
inductive Color where
  | White
  | Black
deriving DecidableEq, Repr

/-- Modelled from the spec: `core.rs` (absent) implements `!color`
(opposite color), used by `Game::make_move`. -/
def Color.other : Color → Color
  | .White => .Black
  | .Black => .White

/-- Piece kinds, from the spec data model (`core.rs` is absent). -/
inductive PieceType where
  | Pawn
  | Knight
  | Bishop
  | Rook
  | Queen
  | King
deriving DecidableEq, Repr

/-- Game outcomes, translated from `game.rs` (`enum GameResult`). -/
inductive GameResult where
  | Win (c : Color)
  | Draw
deriving DecidableEq, Repr

/- Move flags.  Modelled from the spec: `moves.rs` is absent; spec §2
lists the 16 move kinds (quiet, double pawn push, king-side castle,
queen-side castle, capture, en-passant capture, four promotion kinds,
four promotion-capture kinds); the numeric values use the standard
4-bit encoding.  Only the distinctions `game.rs` and `perft.rs` test
(equality with the named flags, `is_capture`, `is_promotion`) matter. -/

/-- Quiet move flag. -/
def quietFlag : Nat := 0

/-- Double pawn push flag (`DOUBLE_PAWN_PUSH_FLAG`). -/
def doublePawnPushFlag : Nat := 1

/-- King-side castle flag (`KING_CASTLE_FLAG`). -/
def kingCastleFlag : Nat := 2

/-- Queen-side castle flag (`QUEEN_CASTLE_FLAG`). -/
def queenCastleFlag : Nat := 3

/-- Plain capture flag (`CAPTURE_FLAG`). -/
def captureFlag : Nat := 4

/-- En-passant capture flag (`EP_CAPTURE_FLAG`). -/
def epCaptureFlag : Nat := 5

/-- Knight promotion flag (`KNIGHT_PROMO_FLAG`). -/
def knightPromoFlag : Nat := 8

/-- Bishop promotion flag (`BISHOP_PROMO_FLAG`). -/
def bishopPromoFlag : Nat := 9

/-- Rook promotion flag (`ROOK_PROMO_FLAG`). -/
def rookPromoFlag : Nat := 10

/-- Queen promotion flag (`QUEEN_PROMO_FLAG`). -/
def queenPromoFlag : Nat := 11

/-- Knight promotion-capture flag (`KNIGHT_PROMO_CAPTURE_FLAG`). -/
def knightPromoCaptureFlag : Nat := 12

/-- Bishop promotion-capture flag (`BISHOP_PROMO_CAPTURE_FLAG`). -/
def bishopPromoCaptureFlag : Nat := 13

/-- Rook promotion-capture flag (`ROOK_PROMO_CAPTURE_FLAG`). -/
def rookPromoCaptureFlag : Nat := 14

/-- Queen promotion-capture flag (`QUEEN_PROMO_CAPTURE_FLAG`). -/
def queenPromoCaptureFlag : Nat := 15

/-- Modelled from the spec: `moves.rs` is absent.  A move records a
source square, destination square and 4-bit flag (spec §2); `game.rs`
additionally reads the moved piece type (`m.moved_piece()`) and the
captured piece type (`m.captured_piece() : Option<PieceType>`), so the
model carries those as fields.  `from`/`to` are named `fromSq`/`toSq`
(`from` is a Lean keyword). -/
structure Move where
  fromSq : Nat
  toSq : Nat
  flag : Nat
  moved_piece : PieceType
  captured_piece : Option PieceType
deriving DecidableEq, Repr

/-- Modelled from the spec: `Move::is_capture` is true exactly for the
capture, en-passant-capture and promotion-capture flags (spec §3). -/
def Move.is_capture (m : Move) : Bool :=
  m.flag == captureFlag || m.flag == epCaptureFlag ||
  m.flag == knightPromoCaptureFlag || m.flag == bishopPromoCaptureFlag ||
  m.flag == rookPromoCaptureFlag || m.flag == queenPromoCaptureFlag

/-- Modelled from the spec: `Move::is_promotion` is true exactly for
the eight promotion flags (spec §3), i.e. flags 8 through 15. -/
def Move.is_promotion (m : Move) : Bool :=
  decide (8 ≤ m.flag)

/-- Modelled from the spec: `Move::null()` (used by
`Game::empty_position` for the rolling window) is the all-zero move. -/
def Move.null : Move :=
  ⟨0, 0, 0, .Pawn, none⟩

/-- The 64-bit mask: bitboards live in `u64`. -/
def mask64 : Nat := 2 ^ 64 - 1

/-- The single-bit bitboard of one square (`Square::bitrep`). -/
def bitOf (sq : Nat) : Nat := 1 <<< sq

/-- Population count of the low 64 bits, by fueled binary recursion. -/
def popcntAux : Nat → Nat → Nat
  | 0, _ => 0
  | fuel + 1, n => n % 2 + popcntAux fuel (n / 2)

/-- Population count of a bitboard (`Bitboard::population`). -/
def popcnt (n : Nat) : Nat := popcntAux 64 n

/-- Index of the lowest set bit (64 when empty), by fueled recursion. -/
def firstSetBitAux : Nat → Nat → Nat
  | 0, _ => 0
  | fuel + 1, n => if n % 2 = 1 then 0 else 1 + firstSetBitAux fuel (n / 2)

/-- Modelled from the spec: locating a color's king
(`Board::get_king_square`) returns the index of the king bitboard's
set bit; 0 when the board is empty (the engine never queries it then). -/
def firstSetBit (n : Nat) : Nat := firstSetBitAux 64 n

/-- Modelled from the spec: `board.rs` is absent.  Twelve per
piece-type/color bitboards plus two per-color occupancy aggregates
(spec §2, §4.2); the combined occupancy is their union. -/
structure Board where
  wp : Nat
  wn : Nat
  wb : Nat
  wr : Nat
  wq : Nat
  wk : Nat
  bp : Nat
  bn : Nat
  bb : Nat
  br : Nat
  bq : Nat
  bk : Nat
  wocc : Nat
  bocc : Nat
deriving DecidableEq, Repr

/-- Modelled from the spec: `Board::empty_position` — no pieces. -/
def Board.emptyPosition : Board :=
  ⟨0, 0, 0, 0, 0, 0, 0, 0, 0, 0, 0, 0, 0, 0⟩

/-- The (color, type) bitboard of a board (`Board::get_pieces`). -/
def Board.getPieces (b : Board) (c : Color) (t : PieceType) : Nat :=
  match c, t with
  | .White, .Pawn => b.wp
  | .White, .Knight => b.wn
  | .White, .Bishop => b.wb
  | .White, .Rook => b.wr
  | .White, .Queen => b.wq
  | .White, .King => b.wk
  | .Black, .Pawn => b.bp
  | .Black, .Knight => b.bn
  | .Black, .Bishop => b.bb
  | .Black, .Rook => b.br
  | .Black, .Queen => b.bq
  | .Black, .King => b.bk

/-- Replace the (color, type) bitboard (the `get_pieces_mut` target). -/
def Board.setPieces (b : Board) (c : Color) (t : PieceType) (v : Nat) : Board :=
  match c, t with
  | .White, .Pawn => { b with wp := v }
  | .White, .Knight => { b with wn := v }
  | .White, .Bishop => { b with wb := v }
  | .White, .Rook => { b with wr := v }
  | .White, .Queen => { b with wq := v }
  | .White, .King => { b with wk := v }
  | .Black, .Pawn => { b with bp := v }
  | .Black, .Knight => { b with bn := v }
  | .Black, .Bishop => { b with bb := v }
  | .Black, .Rook => { b with br := v }
  | .Black, .Queen => { b with bq := v }
  | .Black, .King => { b with bk := v }

/-- A color's occupancy aggregate (`Board::occupied_by`). -/
def Board.occupiedBy (b : Board) (c : Color) : Nat :=
  match c with
  | .White => b.wocc
  | .Black => b.bocc

/-- Replace a color's occupancy aggregate (`occupied_by_mut` target). -/
def Board.setOccupiedBy (b : Board) (c : Color) (v : Nat) : Board :=
  match c with
  | .White => { b with wocc := v }
  | .Black => { b with bocc := v }

/-- XOR a mask into the (color, type) bitboard — the shape of every
`*self.board.get_pieces_mut(c, t) ^= bits` statement in `game.rs`. -/
def Board.xorPieces (b : Board) (c : Color) (t : PieceType) (bits : Nat) : Board :=
  b.setPieces c t (b.getPieces c t ^^^ bits)

/-- XOR a mask into a color's occupancy aggregate
(`*self.board.occupied_by_mut(c) ^= bits`). -/
def Board.xorOcc (b : Board) (c : Color) (bits : Nat) : Board :=
  b.setOccupiedBy c (b.occupiedBy c ^^^ bits)

/-- The combined occupancy, union of both aggregates (spec §3). -/
def Board.occupied (b : Board) : Nat := b.wocc ||| b.bocc

/-- Modelled from the spec: `Board::set_piece_bit(color, type, sq)`
sets the piece bit and keeps the color's occupancy aggregate equal to
the union of that color's bitboards (spec §3 invariant); used by
`Game::from_fen` to build the board. -/
def Board.setPieceBit (b : Board) (c : Color) (t : PieceType) (sq : Nat) : Board :=
  let b := b.setPieces c t (b.getPieces c t ||| bitOf sq)
  b.setOccupiedBy c (b.occupiedBy c ||| bitOf sq)

/-- Modelled from the spec: `Board::piece_at` — the (color, type) of
the occupant of a square, if any, by testing each bitboard. -/
def Board.pieceAt (b : Board) (sq : Nat) : Option (Color × PieceType) :=
  if b.wp.testBit sq then some (.White, .Pawn)
  else if b.wn.testBit sq then some (.White, .Knight)
  else if b.wb.testBit sq then some (.White, .Bishop)
  else if b.wr.testBit sq then some (.White, .Rook)
  else if b.wq.testBit sq then some (.White, .Queen)
  else if b.wk.testBit sq then some (.White, .King)
  else if b.bp.testBit sq then some (.Black, .Pawn)
  else if b.bn.testBit sq then some (.Black, .Knight)
  else if b.bb.testBit sq then some (.Black, .Bishop)
  else if b.br.testBit sq then some (.Black, .Rook)
  else if b.bq.testBit sq then some (.Black, .Queen)
  else if b.bk.testBit sq then some (.Black, .King)
  else none

/-- Rank index of a square (0 = rank 1). -/
def rankOf (sq : Nat) : Nat := sq / 8

/-- Intra-rank index of a square (0 = file h, 7 = file a, as fixed by
the `from_fen` numbering). -/
def fileOf (sq : Nat) : Nat := sq % 8

/-- Step from a square by a (rank, intra-rank) delta, `none` when the
step leaves the board.  Geometry on the (rank, file) grid is symmetric
under the file mirroring of this numbering. -/
def stepSq (sq : Nat) (dr df : Int) : Option Nat :=
  let r : Int := (rankOf sq : Int) + dr
  let f : Int := (fileOf sq : Int) + df
  if 0 ≤ r ∧ r < 8 ∧ 0 ≤ f ∧ f < 8 then some (r.toNat * 8 + f.toNat) else none

/-- The bitboard of the in-board squares reached by a list of deltas. -/
def deltasBits (sq : Nat) (ds : List (Int × Int)) : Nat :=
  ds.foldl (fun acc d =>
    match stepSq sq d.1 d.2 with
    | some t => acc ||| bitOf t
    | none => acc) 0

/-- The eight knight move deltas. -/
def knightDeltas : List (Int × Int) :=
  [(1, 2), (2, 1), (2, -1), (1, -2), (-1, -2), (-2, -1), (-2, 1), (-1, 2)]

/-- The eight king move deltas. -/
def kingDeltas : List (Int × Int) :=
  [(1, 1), (1, 0), (1, -1), (0, 1), (0, -1), (-1, 1), (-1, 0), (-1, -1)]

/-- Modelled from the spec: precomputed knight attack set of a square
(spec §4.1, attack tables). -/
def knightAttacks (sq : Nat) : Nat := deltasBits sq knightDeltas

/-- Modelled from the spec: precomputed king attack set of a square
(spec §4.1, attack tables). -/
def kingAttacks (sq : Nat) : Nat := deltasBits sq kingDeltas

/-- Walk a ray from a square until the first blocker in the combined
occupancy, returning that blocker square (spec §4.1: ray casting stops
at, and includes, the first occupied square); fueled by the board
diameter. -/
def rayFirstHit (occ : Nat) (dr df : Int) : Nat → Nat → Option Nat
  | 0, _ => none
  | fuel + 1, sq =>
    match stepSq sq dr df with
    | none => none
    | some t => if occ.testBit t then some t else rayFirstHit occ dr df fuel t

/-- The four diagonal ray directions. -/
def diagDirs : List (Int × Int) := [(1, 1), (1, -1), (-1, 1), (-1, -1)]

/-- The four orthogonal ray directions. -/
def orthoDirs : List (Int × Int) := [(1, 0), (-1, 0), (0, 1), (0, -1)]

/-- The attackers among `sliders` reached by ray casting from `target`
in each given direction against occupancy `occ`. -/
def slidingAttackers (occ : Nat) (target : Nat) (dirs : List (Int × Int))
    (sliders : Nat) : Nat :=
  dirs.foldl (fun acc d =>
    match rayFirstHit occ d.1 d.2 8 target with
    | some t => if sliders.testBit t then acc ||| bitOf t else acc
    | none => acc) 0

/-- The squares holding a `byColor` pawn that attacks `target`: for a
white attacker one rank below `target` on an adjacent file, for a
black attacker one rank above. -/
def pawnAttackers (pawns : Nat) (target : Nat) (byColor : Color) : Nat :=
  let dr : Int := match byColor with | .White => -1 | .Black => 1
  deltasBits target [(dr, 1), (dr, -1)] &&& pawns

/-- Modelled from the spec: `Board::attackers(target, byColor)` — the
set of squares from which `byColor` attacks `target`, by testing the
pawn/knight/king tables and the sliding rays against all pieces of
that color (spec §4.2). -/
def Board.attackers (b : Board) (target : Nat) (byColor : Color) : Nat :=
  let occ := b.occupied
  (knightAttacks target &&& b.getPieces byColor .Knight) |||
  (kingAttacks target &&& b.getPieces byColor .King) |||
  pawnAttackers (b.getPieces byColor .Pawn) target byColor |||
  slidingAttackers occ target diagDirs
    (b.getPieces byColor .Bishop ||| b.getPieces byColor .Queen) |||
  slidingAttackers occ target orthoDirs
    (b.getPieces byColor .Rook ||| b.getPieces byColor .Queen)

/-- Modelled from the spec: `Board::get_king_square(color)`. -/
def Board.getKingSquare (b : Board) (c : Color) : Nat :=
  firstSetBit (b.getPieces c .King)

/-- Modelled from the spec: `eval.rs` is absent.  The score is
"an incrementally maintained material/positional score" (spec §2)
updated "via piece-added/piece-removed deltas" (spec §4.3); the model
uses plain material values (white positive, black negative), which is
all the claims about score deltas need. -/
def pieceVal : PieceType → Int
  | .Pawn => 100
  | .Knight => 300
  | .Bishop => 300
  | .Rook => 500
  | .Queen => 900
  | .King => 10000

/-- The signed value a (color, type) piece contributes to the score. -/
def signedVal (c : Color) (t : PieceType) : Int :=
  match c with
  | .White => pieceVal t
  | .Black => -pieceVal t

/-- Modelled from the spec: `Score::add_piece(piece, sq)` adds the
piece's delta (square-independent in the material model). -/
def scoreAddPiece (s : Int) (c : Color) (t : PieceType) (_sq : Nat) : Int :=
  s + signedVal c t

/-- Modelled from the spec: `Score::remove_piece(piece, sq)` subtracts
the piece's delta. -/
def scoreRemovePiece (s : Int) (c : Color) (t : PieceType) (_sq : Nat) : Int :=
  s - signedVal c t

/-- Modelled from the spec: `recompute_score(&board)` — the score of a
board from scratch, used only at parse time (spec §4.3). -/
def recomputeScore (b : Board) : Int :=
  [Color.White, Color.Black].foldl (fun acc c =>
    [PieceType.Pawn, .Knight, .Bishop, .Rook, .Queen, .King].foldl (fun acc t =>
      acc + signedVal c t * (popcnt (b.getPieces c t) : Int)) acc) 0

/-- The fixed 8-slot rolling window of recent moves
(`recent_moves: [Move; 8]` in `game.rs`). -/
structure RecentMoves where
  m0 : Move
  m1 : Move
  m2 : Move
  m3 : Move
  m4 : Move
  m5 : Move
  m6 : Move
  m7 : Move
deriving DecidableEq, Repr

/-- The all-null-move window of `Game::empty_position`. -/
def RecentMoves.allNull : RecentMoves :=
  ⟨.null, .null, .null, .null, .null, .null, .null, .null⟩

/-- Castling-rights flags, translated from the `bitflags!` block of
`game.rs`: WHITE_KINGSIDE = 1, WHITE_QUEENSIDE = 2, BLACK_KINGSIDE = 4,
BLACK_QUEENSIDE = 8, as bits of a `u8`-valued mask. -/
def whiteKingside : Nat := 1

/-- WHITE_QUEENSIDE castling flag. -/
def whiteQueenside : Nat := 2

/-- BLACK_KINGSIDE castling flag. -/
def blackKingside : Nat := 4

/-- BLACK_QUEENSIDE castling flag. -/
def blackQueenside : Nat := 8

/-- `CastlingRights::remove(flag)`: `bits &= !flag`, on the low four
bits that castling rights occupy. -/
def removeCR (r f : Nat) : Nat := r &&& (15 ^^^ f)

/-- The full game state, translated field by field from
`struct Game` in `game.rs` (bitboards and masks as `Nat`, squares as
`Nat` indices, `u8`/`u16` counters as `Nat` reduced mod 2^8 / 2^16
where they are written). -/
structure Game where
  board : Board
  to_move : Color
  ep_square : Option Nat
  castling_rights : Nat
  fifty_move_count : Nat
  moves_played : Nat
  recent_moves : RecentMoves
  king_attackers : Nat
  score : Int
  outcome : Option GameResult
deriving DecidableEq, Repr

/-- `Game::empty_position`, translated from `game.rs`. -/
def Game.empty_position : Game where
  board := Board.emptyPosition
  to_move := .White
  ep_square := none
  castling_rights := 0
  fifty_move_count := 0
  moves_played := 0
  recent_moves := RecentMoves.allNull
  king_attackers := 0
  score := 0
  outcome := none

/-- `Game::is_draw_by_repetition`, translated from `game.rs`: more
than 8 moves played and window slots 0↔4, 2↔6, 1↔5, 3↔7 pairwise
equal. -/
def Game.is_draw_by_repetition (g : Game) : Bool :=
  decide (g.moves_played > 8) &&
  (g.recent_moves.m0 == g.recent_moves.m4) &&
  (g.recent_moves.m2 == g.recent_moves.m6) &&
  (g.recent_moves.m1 == g.recent_moves.m5) &&
  (g.recent_moves.m3 == g.recent_moves.m7)

/-- Decimal digits of a natural number, most significant first
(fueled; mirrors Rust's `to_string` on unsigned integers). -/
def natDigitsAux : Nat → Nat → List Char → List Char
  | 0, _, acc => acc
  | fuel + 1, n, acc =>
    let acc := Char.ofNat (48 + n % 10) :: acc
    if n < 10 then acc else natDigitsAux fuel (n / 10) acc

/-- Decimal string of a natural number. -/
def natToString (n : Nat) : String := String.mk (natDigitsAux (n + 1) n [])

/-- A decimal digit character's value, if it is one. -/
def digitVal (c : Char) : Option Nat :=
  if 48 ≤ c.toNat ∧ c.toNat ≤ 57 then some (c.toNat - 48) else none

/-- Horner accumulation of decimal digits; `none` on a non-digit. -/
def digitsToNat : List Char → Nat → Option Nat
  | [], acc => some acc
  | c :: rest, acc =>
    match digitVal c with
    | some d => digitsToNat rest (acc * 10 + d)
    | none => none

/-- Rust `str::parse::<uN>` semantics: an optional leading `+`, then a
nonempty run of decimal digits, rejecting values above the bound. -/
def parseUnsigned (bound : Nat) (s : String) : Option Nat :=
  let cs := s.data
  let cs := match cs with
    | '+' :: rest => rest
    | _ => cs
  if cs.isEmpty then none
  else
    match digitsToNat cs 0 with
    | some v => if v ≤ bound then some v else none
    | none => none

/-- `parse::<u8>()` on the fifty-move field of `Game::from_fen`. -/
def parseU8 (s : String) : Option Nat := parseUnsigned 255 s

/-- `parse::<u16>()` on the move-count field of `Game::from_fen`. -/
def parseU16 (s : String) : Option Nat := parseUnsigned 65535 s

/-- Split a string at whitespace runs, dropping empty pieces — the
`str::split_whitespace` used by `Game::from_fen_str`. -/
def splitWsAux : List Char → List Char → List String → List String
  | [], cur, acc =>
    (if cur.isEmpty then acc else String.mk cur.reverse :: acc).reverse
  | c :: rest, cur, acc =>
    if c.isWhitespace then
      splitWsAux rest [] (if cur.isEmpty then acc else String.mk cur.reverse :: acc)
    else
      splitWsAux rest (c :: cur) acc

/-- Whitespace-splitting of a FEN string into its fields. -/
def splitWs (s : String) : List String := splitWsAux s.data [] []

/-- Modelled from the spec: `Square::to_algebraic` (`core.rs` absent) —
two-character algebraic notation, file letter then rank digit, under
the square numbering fixed by `from_fen` (square 63 = a8). -/
def toAlgebraic (sq : Nat) : String :=
  String.mk [Char.ofNat (97 + (7 - fileOf sq)), Char.ofNat (49 + rankOf sq)]

/-- Modelled from the spec: `Square::from_algebraic` (`core.rs`
absent) — parse `"a1".."h8"`, `none` for anything else (in particular
for the `-` of an absent en-passant field). -/
def fromAlgebraic (s : String) : Option Nat :=
  match s.data with
  | [c1, c2] =>
    if 97 ≤ c1.toNat ∧ c1.toNat ≤ 104 ∧ 49 ≤ c2.toNat ∧ c2.toNat ≤ 56 then
      some ((c2.toNat - 49) * 8 + (7 - (c1.toNat - 97)))
    else none
  | _ => none

/-- The piece placed by a placement letter, translated from the
character match in `Game::from_fen`. -/
def pieceOfChar : Char → Option (Color × PieceType)
  | 'p' => some (.Black, .Pawn)
  | 'n' => some (.Black, .Knight)
  | 'b' => some (.Black, .Bishop)
  | 'r' => some (.Black, .Rook)
  | 'q' => some (.Black, .Queen)
  | 'k' => some (.Black, .King)
  | 'P' => some (.White, .Pawn)
  | 'N' => some (.White, .Knight)
  | 'B' => some (.White, .Bishop)
  | 'R' => some (.White, .Rook)
  | 'Q' => some (.White, .Queen)
  | 'K' => some (.White, .King)
  | _ => none

/-- The empty-square run of a placement digit `1`..`8`. -/
def runOfChar (c : Char) : Option Nat :=
  if 49 ≤ c.toNat ∧ c.toNat ≤ 56 then some (c.toNat - 48) else none

/-- Whether a character is recognized by the placement loop of
`Game::from_fen`: a piece letter, a run digit, or `/`. -/
def placementChar (c : Char) : Bool :=
  (pieceOfChar c).isSome || (runOfChar c).isSome || c == '/'

/-- `decrement_square` from `Game::from_fen`: move the cursor down by
`n`, clamping at square 0. -/
def decrementSquare (sq n : Nat) : Nat := if sq ≥ n then sq - n else 0

/-- One placement character applied to the (board, cursor) state of
the board-building loop of `Game::from_fen`; `none` on an
unrecognized character (the loop's `_ => return None`). -/
def placementStep (st : Board × Nat) (c : Char) : Option (Board × Nat) :=
  match pieceOfChar c with
  | some (col, t) =>
    some (st.1.setPieceBit col t st.2, decrementSquare st.2 1)
  | none =>
    match runOfChar c with
    | some n => some (st.1, decrementSquare st.2 n)
    | none => if c == '/' then some st else none

/-- The board-building loop of `Game::from_fen` over the placement
characters, starting from the cursor at square 63. -/
def parsePlacementAux : List Char → Board × Nat → Option Board
  | [], st => some st.1
  | c :: rest, st =>
    match placementStep st c with
    | some st2 => parsePlacementAux rest st2
    | none => none

/-- Parse the placement field of a position description. -/
def parsePlacement (s : String) : Option Board :=
  parsePlacementAux s.data (Board.emptyPosition, 63)

/-- Parse the side-to-move field (`"w"`/`"b"`, else `return None`). -/
def parseColor (s : String) : Option Color :=
  if s = "w" then some .White
  else if s = "b" then some .Black
  else none

/-- The castling-rights loop of `Game::from_fen`: fold the field's
characters, `K`/`Q`/`k`/`q` adding a flag, `-` ignored, anything else
`return None`. -/
def parseCastleAux : List Char → Nat → Option Nat
  | [], r => some r
  | c :: rest, r =>
    if c == 'K' then parseCastleAux rest (r ||| whiteKingside)
    else if c == 'Q' then parseCastleAux rest (r ||| whiteQueenside)
    else if c == 'k' then parseCastleAux rest (r ||| blackKingside)
    else if c == 'q' then parseCastleAux rest (r ||| blackQueenside)
    else if c == '-' then parseCastleAux rest r
    else none

/-- Parse the castling-rights field. -/
def parseCastle (s : String) : Option Nat := parseCastleAux s.data 0

/-- Result of `Game::from_fen`: `ok` for `Some(game)`, `fail` for
`None`, and `panicked` modelling the `.expect(...)` panics the
function raises when a field is missing. -/
inductive FenResult where
  | ok (g : Game)
  | fail
  | panicked
deriving DecidableEq, Repr

/-- `Game::from_fen`, translated from `game.rs` with the field
iterator made explicit as a list, consumed lazily exactly as the
source does: each `args.next().expect(...)` is a match on the list
head that panics only when reached with the list exhausted, and each
present field is processed — possibly returning `None` — before the
next `.expect` can run (so `from_fen_str("x")` fails at the placement
loop's catch-all rather than panicking).  Surplus fields beyond the
sixth are never read.  On success the king-attacker cache and score
are computed from the built board and the outcome is left absent. -/
def Game.from_fen (fields : List String) : FenResult :=
  match fields with
  | [] => .panicked
  | placement :: rest1 =>
    match parsePlacement placement with
    | none => .fail
    | some board =>
      match rest1 with
      | [] => .panicked
      | color :: rest2 =>
        match parseColor color with
        | none => .fail
        | some toMove =>
          match rest2 with
          | [] => .panicked
          | castle :: rest3 =>
            match parseCastle castle with
            | none => .fail
            | some rights =>
              match rest3 with
              | [] => .panicked
              | ep :: rest4 =>
                let epSq := fromAlgebraic ep
                match rest4 with
                | [] => .panicked
                | fifty :: rest5 =>
                  match parseU8 fifty with
                  | none => .fail
                  | some fifty50 =>
                    match rest5 with
                    | [] => .panicked
                    | moves :: _ =>
                      match parseU16 moves with
                      | none => .fail
                      | some movesPlayed =>
                        let kingSq := board.getKingSquare toMove
                        .ok { board := board
                              to_move := toMove
                              ep_square := epSq
                              castling_rights := rights
                              fifty_move_count := fifty50
                              moves_played := movesPlayed
                              recent_moves := RecentMoves.allNull
                              king_attackers := board.attackers kingSq toMove.other
                              score := recomputeScore board
                              outcome := none }

/-- `Game::from_fen_str`, translated from `game.rs`: split at
whitespace and parse. -/
def Game.from_fen_str (fen : String) : FenResult :=
  Game.from_fen (splitWs fen)

/-- The placement letter of a piece, from the match in `Game::to_fen`. -/
def pieceChar : Color × PieceType → Char
  | (.Black, .Pawn) => 'p'
  | (.Black, .Knight) => 'n'
  | (.Black, .Bishop) => 'b'
  | (.Black, .Rook) => 'r'
  | (.Black, .Queen) => 'q'
  | (.Black, .King) => 'k'
  | (.White, .Pawn) => 'P'
  | (.White, .Knight) => 'N'
  | (.White, .Bishop) => 'B'
  | (.White, .Rook) => 'R'
  | (.White, .Queen) => 'Q'
  | (.White, .King) => 'K'

/-- One iteration of the board-serialization loop of `Game::to_fen`
(descending square index), carrying the string and the empty-square
tally: flush the tally at a piece or rank wrap, emit `/` between
ranks, then emit the piece letter or grow the tally. -/
def toFenStep (b : Board) (st : String × Nat) (idx : Nat) : String × Nat :=
  let wrapped := fileOf idx == 7
  let mp := b.pieceAt idx
  let st :=
    if (mp.isSome || wrapped) && decide (st.2 > 0) then
      (st.1 ++ natToString st.2, 0)
    else st
  let st1 := if wrapped && decide (idx < 63) then (st.1 ++ "/", st.2) else st
  match mp with
  | some pc => (st1.1.push (pieceChar pc), st1.2)
  | none => (st1.1, st1.2 + 1)

/-- The board field of `Game::to_fen`: fold the serialization step
over squares 63 down to 0 and flush a trailing tally. -/
def toFenBoard (b : Board) : String :=
  let st := (List.range 64).reverse.foldl (toFenStep b) ("", 0)
  if st.2 > 0 then st.1 ++ natToString st.2 else st.1

/-- The castling field of `Game::to_fen`: `-` when empty, else the
held flags in `K`, `Q`, `k`, `q` order. -/
def toFenCastle (r : Nat) : String :=
  if r = 0 then "-"
  else
    (if r &&& whiteKingside ≠ 0 then "K" else "") ++
    (if r &&& whiteQueenside ≠ 0 then "Q" else "") ++
    (if r &&& blackKingside ≠ 0 then "k" else "") ++
    (if r &&& blackQueenside ≠ 0 then "q" else "")

/-- `Game::to_fen`, translated from `game.rs`: the six fields joined
by single spaces. -/
def Game.to_fen (g : Game) : String :=
  let toMoveStr := match g.to_move with
    | .White => "w"
    | .Black => "b"
  let epStr := match g.ep_square with
    | some sq => toAlgebraic sq
    | none => "-"
  toFenBoard g.board ++ " " ++ toMoveStr ++ " " ++ toFenCastle g.castling_rights
    ++ " " ++ epStr ++ " " ++ natToString g.fifty_move_count
    ++ " " ++ natToString g.moves_played

/- `Game::make_move` (game.rs lines 280-520).  The Rust function
mutates `self` field by field; the translation computes each field of
the successor state by a helper that mirrors the corresponding source
lines, then applies the source's final repetition check.  `unwrap()`
on an absent option is modelled by `getD` defaults; the claims only
quantify over moves for which the source would not panic, and none of
the settled properties depend on those defaults. -/

/-- The capture-driven castling-rights removal of `make_move` (lines
301-308): a capture landing on h1 (0), a1 (7), h8 (56) or a8 (63)
clears the matching flag. -/
def captureRights (g : Game) (m : Move) : Nat :=
  if m.is_capture then
    if m.toSq = 0 then removeCR g.castling_rights whiteKingside
    else if m.toSq = 7 then removeCR g.castling_rights whiteQueenside
    else if m.toSq = 56 then removeCR g.castling_rights blackKingside
    else if m.toSq = 63 then removeCR g.castling_rights blackQueenside
    else g.castling_rights
  else g.castling_rights

/-- The mover-driven castling-rights removal of `make_move`: rook
moves from a home square (lines 412-426) and king moves (lines
448-466) clear flags; other piece types leave them unchanged. -/
def moverRights (r1 : Nat) (mc : Color) (moved : PieceType) (fromSq : Nat) : Nat :=
  match moved with
  | .Rook =>
    match mc with
    | .White =>
      if fromSq = 0 then removeCR r1 whiteKingside
      else if fromSq = 7 then removeCR r1 whiteQueenside
      else r1
    | .Black =>
      if fromSq = 63 then removeCR r1 blackQueenside
      else if fromSq = 56 then removeCR r1 blackKingside
      else r1
  | .King =>
    match mc with
    | .White => removeCR (removeCR r1 whiteKingside) whiteQueenside
    | .Black => removeCR (removeCR r1 blackQueenside) blackKingside
  | _ => r1

/-- The castling rights after `make_move`. -/
def rightsAfter (g : Game) (m : Move) : Nat :=
  moverRights (captureRights g m) g.to_move m.moved_piece m.fromSq

/-- The score updates of `make_move` before any draw override: move
the mover's value (lines 298-299), subtract a captured piece at the
destination or en-passant square (lines 310-320), and add a promotion
piece (lines 359-385, inside the pawn branch; the pawn's value at the
destination is never removed). -/
def scoreRawAfter (g : Game) (m : Move) : Int :=
  let mc := g.to_move
  let oc := mc.other
  let s := scoreRemovePiece g.score mc m.moved_piece m.fromSq
  let s := scoreAddPiece s mc m.moved_piece m.toSq
  let s :=
    if m.is_capture then
      let capturedSquare :=
        if m.flag = epCaptureFlag then
          match oc with
          | .White => g.ep_square.getD 0 + 8
          | .Black => g.ep_square.getD 0 - 8
        else m.toSq
      scoreRemovePiece s oc (m.captured_piece.getD .Pawn) capturedSquare
    else s
  if m.moved_piece = .Pawn ∧ m.is_promotion then
    if m.flag = knightPromoFlag ∨ m.flag = knightPromoCaptureFlag then
      scoreAddPiece s mc .Knight m.toSq
    else if m.flag = bishopPromoFlag ∨ m.flag = bishopPromoCaptureFlag then
      scoreAddPiece s mc .Bishop m.toSq
    else if m.flag = rookPromoFlag ∨ m.flag = rookPromoCaptureFlag then
      scoreAddPiece s mc .Rook m.toSq
    else if m.flag = queenPromoFlag ∨ m.flag = queenPromoCaptureFlag then
      scoreAddPiece s mc .Queen m.toSq
    else s
  else s

/-- The board after the per-piece-type branch of `make_move` (lines
330-485): toggle the mover over from/to, remove a captured piece
(at the en-passant square for en-passant captures), swap a promoting
pawn's destination bit for the promotion piece's, and move the rook of
a castle. -/
def boardAfter (g : Game) (m : Move) : Board :=
  let mc := g.to_move
  let oc := mc.other
  let fromToBit := bitOf m.fromSq ||| bitOf m.toSq
  let toBit := bitOf m.toSq
  let b := g.board
  match m.moved_piece with
  | .Pawn =>
    let b := (b.xorPieces mc .Pawn fromToBit).xorOcc mc fromToBit
    let b :=
      if m.is_capture then
        if m.flag = epCaptureFlag then
          let capturedBit :=
            match mc with
            | .White => bitOf (g.ep_square.getD 0) >>> 8
            | .Black => (bitOf (g.ep_square.getD 0) <<< 8) &&& mask64
          (b.xorPieces oc .Pawn capturedBit).xorOcc oc capturedBit
        else
          (b.xorPieces oc (m.captured_piece.getD .Pawn) toBit).xorOcc oc toBit
      else b
    if m.is_promotion then
      let b := b.setPieces mc .Pawn (b.getPieces mc .Pawn &&& (mask64 ^^^ toBit))
      if m.flag = knightPromoFlag ∨ m.flag = knightPromoCaptureFlag then
        b.setPieces mc .Knight (b.getPieces mc .Knight ||| toBit)
      else if m.flag = bishopPromoFlag ∨ m.flag = bishopPromoCaptureFlag then
        b.setPieces mc .Bishop (b.getPieces mc .Bishop ||| toBit)
      else if m.flag = rookPromoFlag ∨ m.flag = rookPromoCaptureFlag then
        b.setPieces mc .Rook (b.getPieces mc .Rook ||| toBit)
      else if m.flag = queenPromoFlag ∨ m.flag = queenPromoCaptureFlag then
        b.setPieces mc .Queen (b.getPieces mc .Queen ||| toBit)
      else b
    else b
  | .Knight =>
    let b := (b.xorPieces mc .Knight fromToBit).xorOcc mc fromToBit
    if m.is_capture then
      (b.xorPieces oc (m.captured_piece.getD .Pawn) toBit).xorOcc oc toBit
    else b
  | .Bishop =>
    let b := (b.xorPieces mc .Bishop fromToBit).xorOcc mc fromToBit
    if m.is_capture then
      (b.xorPieces oc (m.captured_piece.getD .Pawn) toBit).xorOcc oc toBit
    else b
  | .Rook =>
    let b := (b.xorPieces mc .Rook fromToBit).xorOcc mc fromToBit
    if m.is_capture then
      (b.xorPieces oc (m.captured_piece.getD .Pawn) toBit).xorOcc oc toBit
    else b
  | .Queen =>
    let b := (b.xorPieces mc .Queen fromToBit).xorOcc mc fromToBit
    if m.is_capture then
      (b.xorPieces oc (m.captured_piece.getD .Pawn) toBit).xorOcc oc toBit
    else b
  | .King =>
    let b := (b.xorPieces mc .King fromToBit).xorOcc mc fromToBit
    let b :=
      match mc with
      | .White =>
        if m.flag = kingCastleFlag then
          let rookBit := bitOf 0 ||| bitOf 2
          (b.xorPieces mc .Rook rookBit).xorOcc mc rookBit
        else if m.flag = queenCastleFlag then
          let rookBit := bitOf 7 ||| bitOf 4
          (b.xorPieces mc .Rook rookBit).xorOcc mc rookBit
        else b
      | .Black =>
        if m.flag = kingCastleFlag then
          let rookBit := bitOf 56 ||| bitOf 58
          (b.xorPieces mc .Rook rookBit).xorOcc mc rookBit
        else if m.flag = queenCastleFlag then
          let rookBit := bitOf 63 ||| bitOf 60
          (b.xorPieces mc .Rook rookBit).xorOcc mc rookBit
        else b
    if m.is_capture then
      (b.xorPieces oc (m.captured_piece.getD .Pawn) toBit).xorOcc oc toBit
    else b

/-- The en-passant target after `make_move`: set behind the
destination of a pawn double push (lines 335-340), cleared on every
other move (lines 487-489, which skip the clearing whenever the flag
is the double-push flag, even for a non-pawn mover). -/
def epAfter (g : Game) (m : Move) : Option Nat :=
  if m.moved_piece = .Pawn ∧ m.flag = doublePawnPushFlag then
    match g.to_move with
    | .White => some (m.toSq - 8)
    | .Black => some (m.toSq + 8)
  else if m.flag = doublePawnPushFlag then g.ep_square
  else none

/-- The fifty-move counter after `make_move` (lines 491-495): reset on
a capture or pawn move, else incremented (as a `u8`). -/
def fiftyAfter (g : Game) (m : Move) : Nat :=
  if m.is_capture ∨ m.moved_piece = .Pawn then 0
  else (g.fifty_move_count + 1) % 256

/-- The full-move counter after `make_move` (lines 507-509):
incremented (as a `u16`) only when it becomes White's turn again. -/
def movesPlayedAfter (g : Game) (_m : Move) : Nat :=
  if g.to_move.other = .White then (g.moves_played + 1) % 65536
  else g.moves_played

/-- The rolling window after `make_move` (lines 511-514): shift left
one slot, append the move last. -/
def windowAfter (w : RecentMoves) (m : Move) : RecentMoves :=
  ⟨w.m1, w.m2, w.m3, w.m4, w.m5, w.m6, w.m7, m⟩

/-- The king-attacker cache after `make_move` (lines 504-505):
attackers of the new side to move's king by the mover's color. -/
def kingAttackersAfter (g : Game) (m : Move) : Nat :=
  let b := boardAfter g m
  b.attackers (b.getKingSquare g.to_move.other) g.to_move

/-- The state after `make_move` up to but not including the final
repetition check: all field updates plus the fifty-move draw override
(lines 497-500). -/
def makeMovePre (g : Game) (m : Move) : Game :=
  let fifty := fiftyAfter g m
  { board := boardAfter g m
    to_move := g.to_move.other
    ep_square := epAfter g m
    castling_rights := rightsAfter g m
    fifty_move_count := fifty
    moves_played := movesPlayedAfter g m
    recent_moves := windowAfter g.recent_moves m
    king_attackers := kingAttackersAfter g m
    score := if fifty ≥ 50 then 0 else scoreRawAfter g m
    outcome := if fifty ≥ 50 then some .Draw else g.outcome }

/-- `Game::make_move`, translated from `game.rs`: the field updates
followed by the final repetition check (lines 516-519), which forces a
neutral score and a draw outcome. -/
def Game.make_move (g : Game) (m : Move) : Game :=
  if (makeMovePre g m).is_draw_by_repetition then
    { makeMovePre g m with score := 0, outcome := some .Draw }
  else makeMovePre g m

/-- Modelled from the spec: `tree.rs` is absent.  A `SearchTree` wraps
one focal Position with a depth counter and a quiescence-mode flag
(spec §4.5). -/
structure SearchTree where
  focus : Game
  depth : Nat
  in_quiescence : Bool
deriving DecidableEq, Repr

/-- Modelled from the spec: `SearchTree::new` — a tree focused on the
given position at depth 0. -/
def SearchTree.new (g : Game) : SearchTree :=
  ⟨g, 0, false⟩

/-- Modelled from the spec: `SearchTree::make_move` (descend) invokes
`Position.apply` on the focus and pushes the tracked depth by one. -/
def SearchTree.make_move (t : SearchTree) (m : Move) : SearchTree :=
  { t with focus := t.focus.make_move m, depth := t.depth + 1 }

/-- Modelled from the spec: `SearchTree::unmake_move` (ascend)
replaces the focus with a caller-supplied, previously captured copy
and pops the depth — the save/restore discipline of
`PerftContext::go` (`perft.rs` lines 98, 100, 130). -/
def SearchTree.unmake_move (t : SearchTree) (saved : Game) : SearchTree :=
  { t with focus := saved, depth := t.depth - 1 }

/-- The best-move report line of `Feldspar::find_best_move`
(`feldspar.rs` lines 31-34): `"bestmove "` followed by the origin and
destination squares in algebraic notation, with nothing else appended
whatever the move's flag is. -/
def bestmoveLine (m : Move) : String :=
  "bestmove " ++ toAlgebraic m.fromSq ++ toAlgebraic m.toSq

/-- Parse-then-serialize composition used to state the round-trip
property (spec §8): the serialization of the parse result, when the
parse succeeds. -/
def fenRoundTrip (s : String) : Option String :=
  match Game.from_fen_str s with
  | .ok g => some g.to_fen
  | _ => none

/-- The parsed game of a position-description string (the empty
position when parsing fails; the theorems using it always pin down the
successful parse explicitly). -/
def gameOfFen (s : String) : Game :=
  match Game.from_fen_str s with
  | .ok g => g
  | _ => Game.empty_position

/-- The two castling flags of one side. -/
def sideMask : Color → Nat
  | .White => whiteKingside ||| whiteQueenside
  | .Black => blackKingside ||| blackQueenside

/-- Flag containment order on castling-rights masks: every flag bit of
`a` is also a flag bit of `b`. -/
def crSubset (a b : Nat) : Prop :=
  ∀ i, a.testBit i = true → b.testBit i = true

/- Concrete positions and moves used to evaluate the definitions at
specific inputs (all squares in the numbering fixed by `from_fen`:
e1 = 3, d1 = 4, e2 = 11, d4 = 28, a7 = 55, a8 = 63). -/

/-- A small test position: kings on e1/e8, white knight on e2, White
to move, no castling rights, fifty-move counter 12, move counter 1. -/
def fenBase : String := "4k3/8/8/8/8/8/4N3/4K3 w - - 12 1"

/-- The parsed test position. -/
def gBase : Game := gameOfFen fenBase

/-- A quiet knight move e2-d4. -/
def mQuiet : Move := ⟨11, 28, quietFlag, .Knight, none⟩

/-- A quiet king move e1-d1. -/
def mKing : Move := ⟨3, 4, quietFlag, .King, none⟩

/-- The test position with full castling rights installed. -/
def gCastle : Game := { gBase with castling_rights := 15 }

/-- The test position with enough moves played for the repetition
window to be consulted. -/
def gRep : Game := { gBase with moves_played := 20 }

/-- The test position one quiet move away from the fifty-move cap. -/
def g50 : Game := { gBase with fifty_move_count := 49 }

/-- A promotion-race position: white pawn on a7, kings on e1/e8. -/
def fenPromo : String := "4k3/P7/8/8/8/8/8/4K3 w - - 0 1"

/-- The parsed promotion-race position. -/
def gPromo : Game := gameOfFen fenPromo

/-- The quiet queen promotion a7-a8. -/
def mPromo : Move := ⟨55, 63, queenPromoFlag, .Pawn, none⟩

theorem crSubset_refl (a : Nat) : crSubset a a := fun _ h => h

theorem crSubset_trans {a b c : Nat} (h1 : crSubset a b) (h2 : crSubset b c) :
    crSubset a c := fun i h => h2 i (h1 i h)

theorem land_crSubset (a m : Nat) : crSubset (a &&& m) a := by
  intro i h
  simp only [Nat.testBit_land, Bool.and_eq_true] at h
  exact h.1

theorem removeCR_crSubset (r f : Nat) : crSubset (removeCR r f) r :=
  land_crSubset r _

theorem land_crSubset_right (a m : Nat) : crSubset (a &&& m) m := by
  intro i h
  simp only [Nat.testBit_land, Bool.and_eq_true] at h
  exact h.2

theorem crSubset_land_zero {a b : Nat} (f : Nat) (h : crSubset a b)
    (hb : b &&& f = 0) : a &&& f = 0 := by
  apply Nat.eq_of_testBit_eq
  intro i
  have hbz := congrArg (fun n => n.testBit i) hb
  simp only [Nat.testBit_land, Nat.zero_testBit] at hbz
  rw [Nat.testBit_land, Nat.zero_testBit]
  cases ha : a.testBit i with
  | false => rw [Bool.false_and]
  | true =>
    rw [h i ha, Bool.true_and] at hbz
    rw [Bool.true_and]
    exact hbz

theorem land_land_zero (x : Nat) {m f : Nat} (h : m &&& f = 0) :
    (x &&& m) &&& f = 0 :=
  crSubset_land_zero f (land_crSubset_right x m) h

theorem captureRights_crSubset (g : Game) (m : Move) :
    crSubset (captureRights g m) g.castling_rights := by
  unfold captureRights
  split_ifs <;> first
    | exact crSubset_refl _
    | exact removeCR_crSubset _ _

theorem moverRights_crSubset (r1 : Nat) (mc : Color) (moved : PieceType)
    (fromSq : Nat) : crSubset (moverRights r1 mc moved fromSq) r1 := by
  unfold moverRights
  cases moved <;> cases mc <;> (try split_ifs) <;> first
    | exact crSubset_refl _
    | exact removeCR_crSubset _ _
    | exact crSubset_trans (removeCR_crSubset _ _) (removeCR_crSubset _ _)

theorem rightsAfter_crSubset (g : Game) (m : Move) :
    crSubset (rightsAfter g m) g.castling_rights :=
  crSubset_trans (moverRights_crSubset _ _ _ _) (captureRights_crSubset g m)

theorem make_move_rights (g : Game) (m : Move) :
    (g.make_move m).castling_rights = rightsAfter g m := by
  unfold Game.make_move
  split <;> rfl

theorem make_move_fifty (g : Game) (m : Move) :
    (g.make_move m).fifty_move_count = fiftyAfter g m := by
  unfold Game.make_move
  split <;> rfl

theorem make_move_recent (g : Game) (m : Move) :
    (g.make_move m).recent_moves = windowAfter g.recent_moves m := by
  unfold Game.make_move
  split <;> rfl

theorem makeMovePre_outcome (g : Game) (m : Move) :
    (makeMovePre g m).outcome =
      if fiftyAfter g m ≥ 50 then some .Draw else g.outcome := rfl

theorem makeMovePre_score (g : Game) (m : Move) :
    (makeMovePre g m).score =
      if fiftyAfter g m ≥ 50 then 0 else scoreRawAfter g m := rfl

theorem foldl_rights_crSubset (ms : List Move) (g : Game) :
    crSubset ((ms.foldl Game.make_move g).castling_rights) g.castling_rights := by
  induction ms generalizing g with
  | nil => exact crSubset_refl _
  | cons m rest ih =>
    rw [List.foldl_cons]
    refine crSubset_trans (ih (g.make_move m)) ?_
    rw [make_move_rights]
    exact rightsAfter_crSubset g m

theorem outcome_step (g : Game) (m : Move)
    (h : g.outcome = none ∨ g.outcome = some .Draw) :
    (g.make_move m).outcome = none ∨ (g.make_move m).outcome = some .Draw := by
  unfold Game.make_move
  split
  · right; rfl
  · rw [makeMovePre_outcome]
    split
    · right; rfl
    · exact h

theorem from_fen_outcome {fields : List String} {g : Game}
    (h : Game.from_fen fields = .ok g) : g.outcome = none := by
  unfold Game.from_fen at h
  repeat' split at h
  all_goals try cases h
  all_goals rfl

theorem makeMovePre_fifty (g : Game) (m : Move) :
    (makeMovePre g m).fifty_move_count = fiftyAfter g m := rfl

theorem land_chain2_zero (x : Nat) {m1 m2 f : Nat}
    (h : (m1 &&& m2) &&& f = 0) : ((x &&& m1) &&& m2) &&& f = 0 := by
  apply Nat.eq_of_testBit_eq
  intro i
  have hz := congrArg (fun n => n.testBit i) h
  simp only [Nat.testBit_land, Nat.zero_testBit] at hz
  simp only [Nat.testBit_land, Nat.zero_testBit]
  cases hx : x.testBit i
  · simp only [Bool.false_and]
  · simp only [Bool.true_and]
    exact hz

theorem placementStep_none (st : Board × Nat) {c : Char}
    (h : placementChar c = false) : placementStep st c = none := by
  unfold placementChar at h
  unfold placementStep
  cases hp : pieceOfChar c
  · cases hr : runOfChar c
    · simp only [hp, hr, Option.isSome_none, Bool.false_or] at h
      simp only [h, Bool.false_eq_true, if_false]
    · simp [hp, hr] at h
  · simp [hp] at h

theorem parsePlacementAux_none :
    ∀ (cs : List Char) (st : Board × Nat),
      (∃ c ∈ cs, placementChar c = false) → parsePlacementAux cs st = none := by
  intro cs
  induction cs with
  | nil =>
    intro st h
    rcases h with ⟨c, hc, _⟩
    cases hc
  | cons c rest ih =>
    intro st h
    rcases h with ⟨d, hd, hdbad⟩
    rcases List.mem_cons.mp hd with rfl | hmem
    · unfold parsePlacementAux
      rw [placementStep_none st hdbad]
    · unfold parsePlacementAux
      cases hs : placementStep st c
      · rfl
      · exact ih _ ⟨d, hmem, hdbad⟩

theorem parsePlacement_none_of_bad {s : String}
    (h : ∃ c ∈ s.data, placementChar c = false) : parsePlacement s = none :=
  parsePlacementAux_none s.data _ h

/-- C1 (counterexample): the empty description — a wrong field count —
makes `Game::from_fen_str` reach an `.expect(...)` panic instead of
the explicit absence-of-result (`None`) the claim requires for every
malformed input. -/
theorem c1_counterexample : Game.from_fen_str "" = .panicked := by decide

/-- C1 (amended): a malformed present field is surfaced to the caller
as `None` — an unrecognized placement character fails even when every
later field is missing, because the source processes each field before
the next `.expect` runs — and fewer than six fields never yield a
Position; but a field that is missing after all earlier present fields
parsed successfully makes `from_fen` panic via `.expect` instead of
returning `None` (the empty string does), and surplus fields beyond
the sixth are ignored rather than rejected. -/
theorem c1_claim (fields : List String) :
    Game.from_fen ([] : List String) = .panicked
    ∧ (∀ a rest, fields = a :: rest →
        (∃ ch ∈ a.data, placementChar ch = false) →
        Game.from_fen fields = .fail)
    ∧ (fields.length < 6 → ∀ g, Game.from_fen fields ≠ .ok g)
    ∧ (∀ a b c d e f rest, fields = a :: b :: c :: d :: e :: f :: rest →
        Game.from_fen fields ≠ .panicked
        ∧ Game.from_fen fields = Game.from_fen [a, b, c, d, e, f]
        ∧ (parseU8 e = none → Game.from_fen fields = .fail)
        ∧ (parseU16 f = none → Game.from_fen fields = .fail)) := by
  refine ⟨rfl, ?_, ?_, ?_⟩
  · rintro a rest rfl hbad
    have hnone : parsePlacement a = none := parsePlacement_none_of_bad hbad
    simp only [Game.from_fen, hnone]
  · intro hlen g
    rcases fields with _ | ⟨a, _ | ⟨b, _ | ⟨c, _ | ⟨d, _ | ⟨e, _ | ⟨f, rest⟩⟩⟩⟩⟩⟩
    · simp [Game.from_fen]
    · simp only [Game.from_fen]
      repeat' split
      all_goals simp
    · simp only [Game.from_fen]
      repeat' split
      all_goals simp
    · simp only [Game.from_fen]
      repeat' split
      all_goals simp
    · simp only [Game.from_fen]
      repeat' split
      all_goals simp
    · simp only [Game.from_fen]
      repeat' split
      all_goals simp
    · exfalso
      simp only [List.length_cons] at hlen
      omega
  · rintro a b c d e f rest rfl
    refine ⟨?_, rfl, ?_, ?_⟩
    · simp only [Game.from_fen]
      repeat' split
      all_goals simp
    · intro h8
      simp only [Game.from_fen]
      cases hp : parsePlacement a
      · rfl
      · cases hc : parseColor b
        · rfl
        · cases hca : parseCastle c
          · rfl
          · simp only [h8]
    · intro h16
      simp only [Game.from_fen]
      cases hp : parsePlacement a
      · rfl
      · cases hc : parseColor b
        · rfl
        · cases hca : parseCastle c
          · rfl
          · cases h8 : parseU8 e
            · rfl
            · simp only [h16]

/-- C1 (witness for the amended theorem): the single-field input `x` —
fewer than six fields, its one present field malformed — returns
`None` rather than panicking, exactly as the source's early
`return None` at the placement loop does. -/
theorem c1_witness :
    (∃ ch ∈ "x".data, placementChar ch = false)
    ∧ Game.from_fen ["x"] = .fail :=
  ⟨by decide, (c1_claim ["x"]).2.1 "x" [] rfl (by decide)⟩

set_option maxRecDepth 1000000 in
/-- C2 (counterexample): the valid description whose castling field is
written `QK` (a subset of `KQkq`, so within spec §6's format) parses
successfully but re-serializes with the canonical `KQ`, so parse then
re-serialize is not byte-for-byte the identity on every valid
description. -/
theorem c2_counterexample :
    fenRoundTrip "rnbqkbnr/pppppppp/8/8/8/8/PPPPPPPP/RNBQKBNR w QK - 0 1" =
      some "rnbqkbnr/pppppppp/8/8/8/8/PPPPPPPP/RNBQKBNR w KQ - 0 1"
    ∧ ("rnbqkbnr/pppppppp/8/8/8/8/PPPPPPPP/RNBQKBNR w KQ - 0 1" : String) ≠
      "rnbqkbnr/pppppppp/8/8/8/8/PPPPPPPP/RNBQKBNR w QK - 0 1" := by
  decide

set_option maxRecDepth 1000000 in
/-- C2 (amended): parse then re-serialize is the identity on
canonically written descriptions; verified on the repository's own
test corpus — the standard starting arrangement and the ten varied
mid-game positions of the `fen` test in `game.rs`. -/
theorem c2_claim :
    fenRoundTrip "rnbqkbnr/pppppppp/8/8/8/8/PPPPPPPP/RNBQKBNR w KQkq - 0 1" =
      some "rnbqkbnr/pppppppp/8/8/8/8/PPPPPPPP/RNBQKBNR w KQkq - 0 1"
    ∧ fenRoundTrip "rnbqkbnr/pppppppp/8/8/4P3/8/PPPP1PPP/RNBQKBNR b KQkq e3 0 1" =
      some "rnbqkbnr/pppppppp/8/8/4P3/8/PPPP1PPP/RNBQKBNR b KQkq e3 0 1"
    ∧ fenRoundTrip "rnbqkbnr/pp1ppppp/8/2p5/4P3/8/PPPP1PPP/RNBQKBNR w KQkq c6 0 2" =
      some "rnbqkbnr/pp1ppppp/8/2p5/4P3/8/PPPP1PPP/RNBQKBNR w KQkq c6 0 2"
    ∧ fenRoundTrip "rnbqkbnr/pp1ppppp/8/2p5/4P3/5N2/PPPP1PPP/RNBQKB1R b KQkq - 1 2" =
      some "rnbqkbnr/pp1ppppp/8/2p5/4P3/5N2/PPPP1PPP/RNBQKB1R b KQkq - 1 2"
    ∧ fenRoundTrip "rnbq1k1r/pp1Pbppp/2p5/8/2B5/8/PPP1NnPP/RNBQK2R w KQ - 1 8" =
      some "rnbq1k1r/pp1Pbppp/2p5/8/2B5/8/PPP1NnPP/RNBQK2R w KQ - 1 8"
    ∧ fenRoundTrip "r4rk1/1pp1qppp/p1np1n2/2b1p1B1/2B1P1b1/P1NP1N2/1PP1QPPP/R4RK1 w - - 0 10" =
      some "r4rk1/1pp1qppp/p1np1n2/2b1p1B1/2B1P1b1/P1NP1N2/1PP1QPPP/R4RK1 w - - 0 10"
    ∧ fenRoundTrip "r1bqkbnr/pp1npp1p/2pp2p1/8/2PPP3/2N1B3/PP3PPP/R2QKBNR b KQkq - 1 5" =
      some "r1bqkbnr/pp1npp1p/2pp2p1/8/2PPP3/2N1B3/PP3PPP/R2QKBNR b KQkq - 1 5"
    ∧ fenRoundTrip "r2q1rk1/1p1nbppp/pn1pb3/4p3/4P1PP/1NN1BP2/PPPQ4/1K1R1B1R b - - 0 13" =
      some "r2q1rk1/1p1nbppp/pn1pb3/4p3/4P1PP/1NN1BP2/PPPQ4/1K1R1B1R b - - 0 13"
    ∧ fenRoundTrip "r2qnrk1/4bppp/1B1pb3/p3p1P1/1p2PP2/1N6/PPPQN2P/1K1R1B1R b - - 0 16" =
      some "r2qnrk1/4bppp/1B1pb3/p3p1P1/1p2PP2/1N6/PPPQN2P/1K1R1B1R b - - 0 16"
    ∧ fenRoundTrip "r1bq1rk1/ppp3bp/n2p2p1/3PpP1n/2P5/2N2NP1/PP2BP1P/R1BQ1RK1 b - - 0 10" =
      some "r1bq1rk1/ppp3bp/n2p2p1/3PpP1n/2P5/2N2NP1/PP2BP1P/R1BQ1RK1 b - - 0 10"
    ∧ fenRoundTrip "5r2/4q1pk/2bp1p1p/1p2n3/3QPB2/1B1P3P/1PP3P1/r4RK1 w - - 0 25" =
      some "5r2/4q1pk/2bp1p1p/1p2n3/3QPB2/1B1P3P/1PP3P1/r4RK1 w - - 0 25" := by
  decide

set_option maxRecDepth 1000000 in
/-- C3 (code evaluated at the failing input): for the quiet queen
promotion a7-a8 from the promotion-race position, `make_move` clears
the pawn bit at the destination and sets the queen bit there as the
claim states, but the score gains the full queen value on top of the
still-counted pawn: the pawn's value was added at the destination by
the generic mover update and no `remove_piece` for it is ever issued,
so the score is `old + queen` instead of the claimed
`old - pawn + queen`. -/
theorem c3_code_bug :
    Game.from_fen_str fenPromo = .ok gPromo
    ∧ gPromo.score = 100
    ∧ (gPromo.make_move mPromo).board.wp = 0
    ∧ (gPromo.make_move mPromo).board.wq.testBit 63 = true
    ∧ (gPromo.make_move mPromo).score = gPromo.score + pieceVal .Queen
    ∧ ¬ (gPromo.make_move mPromo).score =
        gPromo.score - pieceVal .Pawn + pieceVal .Queen := by
  decide

/-- C4: the fifty-move counter is reset to 0 by any capture or pawn
move and incremented by one otherwise (as a `u8`, hence below the wrap
at 255), and whenever the counter is at the cap of 50 after the move
the score is forced to 0 and the outcome to a draw. -/
theorem c4_claim (g : Game) (m : Move) :
    ((m.is_capture = true ∨ m.moved_piece = .Pawn) →
      (g.make_move m).fifty_move_count = 0)
    ∧ (¬(m.is_capture = true ∨ m.moved_piece = .Pawn) →
        g.fifty_move_count + 1 < 256 →
        (g.make_move m).fifty_move_count = g.fifty_move_count + 1)
    ∧ (50 ≤ (g.make_move m).fifty_move_count →
        (g.make_move m).score = 0 ∧ (g.make_move m).outcome = some .Draw) := by
  refine ⟨?_, ?_, ?_⟩
  · intro h
    rw [make_move_fifty]
    unfold fiftyAfter
    rw [if_pos h]
  · intro h hlt
    rw [make_move_fifty]
    unfold fiftyAfter
    rw [if_neg h]
    exact Nat.mod_eq_of_lt hlt
  · intro h
    rw [make_move_fifty] at h
    unfold Game.make_move
    split
    · exact ⟨rfl, rfl⟩
    · rw [makeMovePre_score, makeMovePre_outcome, if_pos h, if_pos h]
      exact ⟨rfl, rfl⟩

set_option maxRecDepth 1000000 in
/-- C4 (witness): a quiet knight move from the test position
increments the counter from 12 to 13. -/
theorem c4_witness :
    ¬(mQuiet.is_capture = true ∨ mQuiet.moved_piece = .Pawn)
    ∧ gBase.fifty_move_count + 1 < 256
    ∧ (gBase.make_move mQuiet).fifty_move_count =
        gBase.fifty_move_count + 1 :=
  ⟨by decide, by decide, (c4_claim gBase mQuiet).2.1 (by decide) (by decide)⟩

set_option maxRecDepth 1000000 in
/-- C5 (counterexample): a quiet knight move from the test position
with the counter at 49 reaches the fifty-move cap, so `make_move`
declares a draw although the repetition condition (at least 9 moves
played and window slots 0↔4, 1↔5, 2↔6, 3↔7 pairwise equal) is false —
the draw is not declared *exactly* when that condition holds. -/
theorem c5_counterexample :
    (g50.make_move mQuiet).outcome = some GameResult.Draw
    ∧ (g50.make_move mQuiet).is_draw_by_repetition = false := by
  decide

theorem make_move_rep (g : Game) (m : Move) :
    (g.make_move m).is_draw_by_repetition =
      (makeMovePre g m).is_draw_by_repetition := by
  unfold Game.make_move
  split
  · rfl
  · rfl

/-- C5 (amended): after `make_move` the rolling window is the old
window shifted left one slot with the move appended last; whenever the
repetition condition holds on the resulting state a draw outcome and
neutral score are forced; and when it does not hold and the fifty-move
cap was not reached either, the outcome is left unchanged (so the
repetition signal itself declares a draw exactly when the condition
holds). -/
theorem c5_claim (g : Game) (m : Move) :
    (g.make_move m).recent_moves =
      ⟨g.recent_moves.m1, g.recent_moves.m2, g.recent_moves.m3,
       g.recent_moves.m4, g.recent_moves.m5, g.recent_moves.m6,
       g.recent_moves.m7, m⟩
    ∧ ((g.make_move m).is_draw_by_repetition = true →
        (g.make_move m).outcome = some .Draw ∧ (g.make_move m).score = 0)
    ∧ ((g.make_move m).is_draw_by_repetition = false →
        (g.make_move m).fifty_move_count < 50 →
        (g.make_move m).outcome = g.outcome) := by
  refine ⟨make_move_recent g m, ?_, ?_⟩
  · intro hrep
    rw [make_move_rep] at hrep
    unfold Game.make_move
    rw [if_pos hrep]
    exact ⟨rfl, rfl⟩
  · intro hrep hlt
    rw [make_move_rep] at hrep
    have hne : ¬ ((makeMovePre g m).is_draw_by_repetition = true) := by
      rw [hrep]
      exact Bool.false_ne_true
    unfold Game.make_move at hlt ⊢
    rw [if_neg hne] at hlt ⊢
    rw [makeMovePre_fifty] at hlt
    rw [makeMovePre_outcome, if_neg (Nat.not_le.mpr hlt)]

set_option maxRecDepth 1000000 in
/-- C5 (witness): a null move appended to the all-null window of the
test position with 20 moves played makes the repetition condition
hold, and the outcome is the forced draw. -/
theorem c5_witness :
    (gRep.make_move Move.null).is_draw_by_repetition = true
    ∧ (gRep.make_move Move.null).outcome = some GameResult.Draw :=
  ⟨by decide, ((c5_claim gRep Move.null).2.1 (by decide)).1⟩

/-- C6: across any sequence of applied moves castling rights only ever
shrink (no cleared flag is ever set again), and a single applied move
clears both of a side's flags when its king moves, the matching flag
when a rook moves from its home square (h1 = 0, a1 = 7, h8 = 56,
a8 = 63), and the matching flag when any capture lands on one of those
home squares. -/
theorem c6_claim (g : Game) (m : Move) (ms : List Move) :
    crSubset ((ms.foldl Game.make_move g).castling_rights) g.castling_rights
    ∧ (m.moved_piece = .King →
        (g.make_move m).castling_rights &&& sideMask g.to_move = 0)
    ∧ (m.moved_piece = .Rook → g.to_move = .White → m.fromSq = 0 →
        (g.make_move m).castling_rights &&& whiteKingside = 0)
    ∧ (m.moved_piece = .Rook → g.to_move = .White → m.fromSq = 7 →
        (g.make_move m).castling_rights &&& whiteQueenside = 0)
    ∧ (m.moved_piece = .Rook → g.to_move = .Black → m.fromSq = 56 →
        (g.make_move m).castling_rights &&& blackKingside = 0)
    ∧ (m.moved_piece = .Rook → g.to_move = .Black → m.fromSq = 63 →
        (g.make_move m).castling_rights &&& blackQueenside = 0)
    ∧ (m.is_capture = true → m.toSq = 0 →
        (g.make_move m).castling_rights &&& whiteKingside = 0)
    ∧ (m.is_capture = true → m.toSq = 7 →
        (g.make_move m).castling_rights &&& whiteQueenside = 0)
    ∧ (m.is_capture = true → m.toSq = 56 →
        (g.make_move m).castling_rights &&& blackKingside = 0)
    ∧ (m.is_capture = true → m.toSq = 63 →
        (g.make_move m).castling_rights &&& blackQueenside = 0) := by
  refine ⟨foldl_rights_crSubset ms g, ?_, ?_, ?_, ?_, ?_, ?_, ?_, ?_, ?_⟩
  · intro hk
    rw [make_move_rights]
    unfold rightsAfter moverRights
    rw [hk]
    cases hc : g.to_move
    · exact land_chain2_zero _ (by decide)
    · exact land_chain2_zero _ (by decide)
  · intro hr hw h0
    rw [make_move_rights]
    unfold rightsAfter moverRights
    rw [hr, hw, h0]
    simp only [if_pos]
    exact land_land_zero _ (by decide)
  · intro hr hw h7
    rw [make_move_rights]
    unfold rightsAfter moverRights
    rw [hr, hw, h7]
    norm_num
    exact land_land_zero _ (by decide)
  · intro hr hb h56
    rw [make_move_rights]
    unfold rightsAfter moverRights
    rw [hr, hb, h56]
    norm_num
    exact land_land_zero _ (by decide)
  · intro hr hb h63
    rw [make_move_rights]
    unfold rightsAfter moverRights
    rw [hr, hb, h63]
    simp only [if_pos]
    exact land_land_zero _ (by decide)
  · intro hc h0
    rw [make_move_rights]
    unfold rightsAfter
    apply crSubset_land_zero _ (moverRights_crSubset _ _ _ _)
    unfold captureRights
    rw [hc, h0]
    simp only [if_pos]
    exact land_land_zero _ (by decide)
  · intro hc h7
    rw [make_move_rights]
    unfold rightsAfter
    apply crSubset_land_zero _ (moverRights_crSubset _ _ _ _)
    unfold captureRights
    rw [hc, h7]
    norm_num
    exact land_land_zero _ (by decide)
  · intro hc h56
    rw [make_move_rights]
    unfold rightsAfter
    apply crSubset_land_zero _ (moverRights_crSubset _ _ _ _)
    unfold captureRights
    rw [hc, h56]
    norm_num
    exact land_land_zero _ (by decide)
  · intro hc h63
    rw [make_move_rights]
    unfold rightsAfter
    apply crSubset_land_zero _ (moverRights_crSubset _ _ _ _)
    unfold captureRights
    rw [hc, h63]
    norm_num
    exact land_land_zero _ (by decide)

set_option maxRecDepth 1000000 in
/-- C6 (witness): a king move from the test position with full rights
clears both of White's flags. -/
theorem c6_witness :
    mKing.moved_piece = PieceType.King
    ∧ (gCastle.make_move mKing).castling_rights &&& sideMask gCastle.to_move = 0 :=
  ⟨by decide, (c6_claim gCastle mKing []).2.1 (by decide)⟩

/-- C7 (code evaluated at the failing input): the best-move report
line for the queen promotion a7-a8 is exactly `bestmove a7a8` — the
concatenated origin and destination squares with no promotion letter
appended, although the move is a promotion (the claim, the spec and
the source's own `TODO: print promotion type!` all require the
letter). -/
theorem c7_code_bug :
    mPromo.is_promotion = true
    ∧ bestmoveLine mPromo = "bestmove a7a8" := by
  decide

/-- C8: the save/apply/restore discipline of `PerftContext::go` is an
exact rollback — capturing the focus, descending by a move and
ascending with the captured copy returns the tree, and in particular
its focal Position, to a state identical in every field. -/
theorem c8_claim (t : SearchTree) (m : Move) :
    (t.make_move m).unmake_move t.focus = t
    ∧ ((t.make_move m).unmake_move t.focus).focus = t.focus := by
  obtain ⟨f, d, q⟩ := t
  refine ⟨?_, rfl⟩
  unfold SearchTree.make_move SearchTree.unmake_move
  simp

/-- C10: parsing leaves the outcome absent and `make_move` only ever
assigns the draw outcome, so from any successfully parsed position any
sequence of applied moves ends with the outcome absent or a draw,
never a win. -/
theorem c10_claim (fen : String) (g : Game) (ms : List Move)
    (h : Game.from_fen_str fen = .ok g) :
    (ms.foldl Game.make_move g).outcome = none
    ∨ (ms.foldl Game.make_move g).outcome = some GameResult.Draw := by
  unfold Game.from_fen_str at h
  have h0 : g.outcome = none ∨ g.outcome = some GameResult.Draw :=
    Or.inl (from_fen_outcome h)
  clear h
  revert g
  induction ms with
  | nil =>
    intro g h0
    exact h0
  | cons m rest ih =>
    intro g h0
    rw [List.foldl_cons]
    exact ih (g.make_move m) (outcome_step g m h0)

set_option maxRecDepth 1000000 in
/-- C10 (witness): the parsed test position followed by one quiet
knight move has no outcome. -/
theorem c10_witness :
    Game.from_fen_str fenBase = .ok gBase
    ∧ (([mQuiet].foldl Game.make_move gBase).outcome = none
       ∨ ([mQuiet].foldl Game.make_move gBase).outcome = some GameResult.Draw) :=
  ⟨by decide, c10_claim fenBase gBase [mQuiet] (by decide)⟩

end Feldspar
